import Mathlib

set_option maxRecDepth 8000

/-!
Verification development for `peppol_sync.py`, a single-pass streaming XML
splitter.  The Python source is shallowly embedded below: Python strings are
Lean `String`s (lists of unicode code points, as in CPython), Python string
methods are modelled by the `py*` helpers over `String.data`, the file system
is an association list from artifact paths to file contents, and the
`process_xml` streaming loop (with its `try`/`finally`) is a fold over the
list of stream items that can end in a parse error.
-/

/-- The fixed PEPPOL namespace URI used throughout `peppol_sync.py`. -/
def nsURI : String := "http://www.peppol.eu/schema/pd/businesscard-generic/201907/"

/-- ElementTree's representation of a namespace-qualified tag: `{uri}tag`. -/
def nsTag (t : String) : String := "\x7b" ++ nsURI ++ "\x7d" ++ t

/-- Python `s.endswith(t)`: the last `len(t)` code points of `s` equal `t`. -/
def pyEndsWith (s t : String) : Bool :=
  decide (s.data.drop (s.data.length - t.data.length) = t.data)

/-- Python `s.upper()` restricted to the ASCII range (entity names and the
records in this development are ASCII). -/
def pyUpper (s : String) : String := ⟨s.data.map Char.toUpper⟩

/-- Python `s[:n]` (slicing a string to its first `n` code points). -/
def pyTake (s : String) (n : Nat) : String := ⟨s.data.take n⟩

/-- Python `"".join(filter(str.isalnum, s))`, restricted to the ASCII range. -/
def pyFilterAlnum (s : String) : String := ⟨s.data.filter Char.isAlphanum⟩

/-- Python `s.strip()`: remove leading and trailing whitespace. -/
def pyStrip (s : String) : String :=
  ⟨((s.data.dropWhile Char.isWhitespace).reverse.dropWhile Char.isWhitespace).reverse⟩

/-- Python truthiness of an optional string: `None` and `""` are falsy. -/
def pyTruthy : Option String → Bool
  | none => false
  | some s => !s.data.isEmpty

/-- UTF-8 byte size of a string, i.e. what `os.stat().st_size` reports for a
file holding exactly this text. -/
def pyByteSize (s : String) : Nat :=
  List.foldl (fun n c => n + c.utf8Size) 0 s.data

/-- If `pat` is a prefix of the list, return the remainder after it. -/
def dropPrefixChars : List Char → List Char → Option (List Char)
  | [], rest => some rest
  | _, [] => none
  | p :: ps, c :: cs => if p = c then dropPrefixChars ps cs else none

/-- Worker for `pyRemoveAll`: scan left to right, removing each
non-overlapping occurrence of `pat` (Python `str.replace(pat, '')`).
`fuel` is an upper bound on the number of scan steps; it is always called
with at least the length of the list, which suffices. -/
def removeAllAux (pat : List Char) : Nat → List Char → List Char
  | _, [] => []
  | 0, s => s
  | Nat.succ fuel, c :: rest =>
      match dropPrefixChars pat (c :: rest) with
      | some remainder => removeAllAux pat fuel remainder
      | none => c :: removeAllAux pat fuel rest

/-- Python `s.replace(pat, '')`: remove all non-overlapping occurrences of
`pat`, scanning left to right. -/
def pyRemoveAll (s pat : String) : String :=
  if pat.data.isEmpty then s else ⟨removeAllAux pat.data s.data.length s.data⟩

/-- Does `pat` occur as a contiguous substring of the list? -/
def hasSubstrChars (pat : List Char) : List Char → Bool
  | [] => pat.isEmpty
  | c :: rest => pat.isPrefixOf (c :: rest) || hasSubstrChars pat rest

/-- Does `pat` occur as a contiguous substring of `s`? -/
def hasSubstr (s pat : String) : Bool := hasSubstrChars pat.data s.data

/-- Python `s.split('\n')`. -/
def splitNlChars : List Char → List (List Char)
  | [] => [[]]
  | c :: rest =>
      if c = '\n' then [] :: splitNlChars rest
      else
        match splitNlChars rest with
        | [] => [[c]]
        | h :: t => (c :: h) :: t

/- An XML element as parsed by `xml.etree.ElementTree`: a tag (namespace
qualified tags are spelled `{uri}tag`), an attribute dictionary, optional
text, and child elements in document order (`XmlForest` is the child list,
a mutual type so that tree traversals are structurally recursive). -/
mutual
inductive XmlElem : Type where
  | node : String → List (String × String) → Option String → XmlForest → XmlElem
inductive XmlForest : Type where
  | nil : XmlForest
  | cons : XmlElem → XmlForest → XmlForest
end

def XmlElem.tag : XmlElem → String
  | .node t _ _ _ => t

def XmlElem.attrs : XmlElem → List (String × String)
  | .node _ a _ _ => a

def XmlElem.text : XmlElem → Option String
  | .node _ _ tx _ => tx

def XmlElem.children : XmlElem → XmlForest
  | .node _ _ _ ch => ch

/-- Build a child forest from a list of elements. -/
def XmlForest.ofList : List XmlElem → XmlForest
  | [] => .nil
  | e :: rest => .cons e (XmlForest.ofList rest)

/-- Python `element.get(key)`: attribute lookup (attribute keys are unique). -/
def XmlElem.getAttr (e : XmlElem) (k : String) : Option String :=
  match e.attrs.find? (fun kv => kv.1 = k) with
  | some kv => some kv.2
  | none => none

/- First element with tag `t`, in document order, among an element and all
of its descendants / among a forest and all of its descendants. -/
mutual
def findElem (t : String) : XmlElem → Option XmlElem
  | XmlElem.node tg a tx ch =>
      if tg = t then some (XmlElem.node tg a tx ch) else findForest t ch
def findForest (t : String) : XmlForest → Option XmlElem
  | XmlForest.nil => none
  | XmlForest.cons e rest =>
      match findElem t e with
      | some r => some r
      | none => findForest t rest
end

/-- ElementTree `element.find(".//t")`: first matching descendant of the
element (the element itself is not a candidate). -/
def findDescendant (e : XmlElem) (t : String) : Option XmlElem :=
  findForest t e.children

/-- First direct child with tag `t` in a forest. -/
def findChildForest (t : String) : XmlForest → Option XmlElem
  | XmlForest.nil => none
  | XmlForest.cons e rest =>
      if e.tag = t then some e else findChildForest t rest

/-- ElementTree `element.find("t")`: first matching direct child. -/
def findChild (e : XmlElem) (t : String) : Option XmlElem :=
  findChildForest t e.children

/-- `PeppolSync.extract_country`: find a nested `entity` element (namespace
qualified first, then unqualified) and read its `countrycode` attribute. -/
def extract_country (element : XmlElem) : Option String :=
  match
    (match findDescendant element (nsTag "entity") with
     | some x => some x
     | none => findDescendant element "entity") with
  | some entity => entity.getAttr "countrycode"
  | none => none

/-- `PeppolSync.extract_date`: find a nested `regdate` element (namespace
qualified first, then unqualified); if it has truthy text whose stripped form
has at least 10 code points, return the first 10 (the `YYYY-MM-DD` part). -/
def extract_date (element : XmlElem) : Option String :=
  match
    (match findDescendant element (nsTag "regdate") with
     | some x => some x
     | none => findDescendant element "regdate") with
  | some regdate =>
      match regdate.text with
      | some txt =>
          if txt.data.isEmpty then none
          else
            let dateStr := pyStrip txt
            if 10 ≤ dateStr.data.length then some (pyTake dateStr 10) else none
      | none => none
  | none => none

/-- `PeppolSync.extract_entity_name`: find a nested `entity` element, then its
direct `name` child (namespace qualified first, then unqualified), and read
that child's `name` attribute. -/
def extract_entity_name (element : XmlElem) : Option String :=
  match
    (match findDescendant element (nsTag "entity") with
     | some x => some x
     | none => findDescendant element "entity") with
  | some entity =>
      match
        (match findChild entity (nsTag "name") with
         | some x => some x
         | none => findChild entity "name") with
      | some nameElement => nameElement.getAttr "name"
      | none => none
  | none => none

/-- The namespace declaration ElementTree emits for a prefixed use of the
fixed namespace: ` xmlns:ns0="…"`. -/
def declPrefixed : String := " xmlns:ns0=\"" ++ nsURI ++ "\""

/-- The default-namespace declaration for the fixed namespace: ` xmlns="…"`. -/
def declDefault : String := " xmlns=\"" ++ nsURI ++ "\""

/-- `PeppolSync.element_to_string`, applied to the text `ET.tostring` produced
for the element (the "source serialization"): three chained
`str.replace(..., '')` calls removing the prefixed declaration, the default
declaration, and every `ns0:` prefix token. -/
def element_to_string (xmlStr : String) : String :=
  pyRemoveAll (pyRemoveAll (pyRemoveAll xmlStr declPrefixed) declDefault) "ns0:"

/-- An artifact path `extracts/<country>/business-cards.<sequence:06d>.xml`,
identified by its two varying parts.  The fixed-text formatting is injective
in `(country, sequence)`, so `pathlib.Path` equality coincides with pair
equality. -/
abbrev ArtifactPath := String × Nat

/-- The on-disk state of the `extracts/` tree: an association list from
artifact path to file content.  Writes through the (sole) open handle are
modelled as immediately visible in the content, which is also what
`Path.stat().st_size` observes. -/
abbrev FS := List (ArtifactPath × String)

/-- Look up a key in an association list (leftmost binding). -/
def alGet : List (String × Nat) → String → Option Nat
  | [], _ => none
  | (k, v) :: rest, a => if k = a then some v else alGet rest a

/-- Replace the binding of a key in an association list (the key is present
whenever this is called on `file_stats`). -/
def alSet : List (String × Nat) → String → Nat → List (String × Nat)
  | [], k, v => [(k, v)]
  | (k1, v1) :: rest, k, v =>
      if k1 = k then (k, v) :: rest else (k1, v1) :: alSet rest k v

/-- Python `dict.setdefault(c, {'sequence': 1})` on `file_stats`: return the
existing sequence for `c`, or insert `1` (at the end, as dict insertion
order) and return it. -/
def setdefaultSeq (m : List (String × Nat)) (c : String) :
    List (String × Nat) × Nat :=
  match alGet m c with
  | some v => (m, v)
  | none => (m ++ [(c, 1)], 1)

/-- `defaultdict(int)` increment: `stats[k] += 1`. -/
def bump (m : List (String × Nat)) (k : String) : List (String × Nat) :=
  match alGet m k with
  | some v => alSet m k (v + 1)
  | none => m ++ [(k, 1)]

/-- Read a file's content, `none` when no file exists at the path. -/
def fsGet : FS → ArtifactPath → Option String
  | [], _ => none
  | (q, w) :: rest, p => if q = p then some w else fsGet rest p

/-- Write (create or replace) a file's content. -/
def fsSet : FS → ArtifactPath → String → FS
  | [], p, v => [(p, v)]
  | (q, w) :: rest, p, v =>
      if q = p then (p, v) :: rest else (q, w) :: fsSet rest p v

/-- The mutable run state of `PeppolSync.process_xml` (together with the
fields of the `PeppolSync` object it touches): the `stats` counters, the
per-country `file_stats` sequence map, the output-file counter, the
`processed_cards` counter, and the path of the currently open artifact
(`current_file_path`; `current_file_handle` is open exactly when it is
`some`). -/
structure RouterState where
  stats : List (String × Nat)
  fileStats : List (String × Nat)
  fileCount : Nat
  processed : Nat
  currentPath : Option ArtifactPath
deriving DecidableEq

/-- The state at the start of `process_xml` on a fresh `PeppolSync`. -/
def initState : RouterState := ⟨[], [], 0, 0, none⟩

/-- File-handle operations performed on the `extracts/` tree, in order. -/
inductive Event : Type where
  | openNew : ArtifactPath → Event
  | openExisting : ArtifactPath → Event
  | closeArtifact : ArtifactPath → Event
  | writeRecord : ArtifactPath → Event
deriving DecidableEq

/-- One item delivered by `ET.iterparse`: a completed record element together
with its `ET.tostring` serialization (the serializer is external library
code; its output for the element is carried alongside), or a parse failure
raised mid-stream. -/
structure StreamRecord where
  elem : XmlElem
  srcXml : String

inductive StreamItem : Type where
  | record : StreamRecord → StreamItem
  | parseError : StreamItem

/-- The closing wrapper tag written when an artifact is closed. -/
def closingTag : String := "</root>\n"

/-- The XML declaration plus opening wrapper tag written to a new artifact. -/
def xmlHeader : String :=
  "<?xml version=\"1.0\" encoding=\"UTF-8\"?>\n<root xmlns=\"" ++ nsURI
    ++ "\" version=\"2\">\n"

/-- Lines 237: `output_path.exists() and output_path.stat().st_size >
self.max_bytes`. -/
def shouldRoll (maxBytes : Nat) (fs : FS) (p : ArtifactPath) : Bool :=
  match fsGet fs p with
  | some content => decide (maxBytes < pyByteSize content)
  | none => false

/-- Lines 260-264: reopen an existing artifact in `r+` mode, seek to
`end - len('</root>\n')` and truncate.  The seek offset is in bytes while
`len` counts code points; every artifact this program writes ends in the
ASCII text `</root>\n`, for which the two coincide, so the truncation is
modelled as dropping the final `len('</root>\n')` code points — performed
unconditionally, with no check of what those trailing bytes are. -/
def reopenTruncate (content : String) : String :=
  ⟨content.data.take (content.data.length - closingTag.data.length)⟩

/-- Fallback statistics bucket, lines 216-226: `safe_name` is the first five
alphanumeric characters of the entity name, uppercased ('' when the name is
absent, empty, or has no alphanumeric characters). -/
def safe_name (entityName : Option String) : String :=
  match entityName with
  | none => ""
  | some n => if n.data.isEmpty then "" else pyUpper (pyTake (pyFilterAlnum n) 5)

/-- Lines 223-226: `date = f"2000-{safe_name}"` when `safe_name` is truthy,
else the literal `"2000-UNKNOWN"`. -/
def fallbackBucket (entityName : Option String) : String :=
  if (safe_name entityName).data.isEmpty then "2000-UNKNOWN"
  else "2000-" ++ safe_name entityName

/-- Lines 215-226: keep a truthy extracted date, otherwise synthesize the
fallback bucket from the entity name. -/
def dateOrFallback (date : Option String) (entityName : Option String) : String :=
  if pyTruthy date then date.getD "" else fallbackBucket entityName

/-- Lines 270-272: write the serialized record line by line, skipping blank
lines, each indented two spaces and newline-terminated. -/
def indentBody (xmlStr : String) : String :=
  ⟨(splitNlChars xmlStr.data).foldl
    (fun acc line =>
      if (pyStrip ⟨line⟩).data.isEmpty then acc
      else acc ++ "  ".data ++ line ++ "\n".data)
    []⟩

/-- Lines 242-266: if the candidate path differs from the currently open
artifact, close the open one (writing the closing wrapper tag), then either
create the candidate (writing the header, bumping the file counter) or
reopen it and truncate away the trailing closing-tag-sized chunk. -/
def switchArtifact (st : RouterState) (fs : FS) (path : ArtifactPath) :
    RouterState × FS × List Event :=
  if st.currentPath = some path then (st, fs, [])
  else
    let fs1 :=
      match st.currentPath with
      | some cur => fsSet fs cur ((fsGet fs cur).getD "" ++ closingTag)
      | none => fs
    let evs1 : List Event :=
      match st.currentPath with
      | some cur => [Event.closeArtifact cur]
      | none => []
    match fsGet fs1 path with
    | none =>
        ({ st with fileCount := st.fileCount + 1, currentPath := some path },
         fsSet fs1 path xmlHeader,
         evs1 ++ [Event.openNew path])
    | some content =>
        ({ st with currentPath := some path },
         fsSet fs1 path (reopenTruncate content),
         evs1 ++ [Event.openExisting path])

/-- Lines 213-272, the body of `if country:`: bump the country and date
statistics, look up or create the country's sequence, roll the sequence over
when the existing artifact at the candidate path exceeds `max_bytes`, switch
the open artifact if needed, and append the serialized record. -/
def handleCountry (maxBytes : Nat) (st : RouterState) (fs : FS)
    (r : StreamRecord) (c : String) : RouterState × FS × List Event :=
  let st2 := { st with stats := bump st.stats ("country_" ++ c) }
  let bucket := dateOrFallback (extract_date r.elem) (extract_entity_name r.elem)
  let st3 := { st2 with stats := bump st2.stats ("date_" ++ bucket) }
  let m1 := (setdefaultSeq st3.fileStats c).1
  let seq0 := (setdefaultSeq st3.fileStats c).2
  let roll := shouldRoll maxBytes fs (c, seq0)
  let m2 := if roll then alSet m1 c (seq0 + 1) else m1
  let seq := if roll then seq0 + 1 else seq0
  let st4 := { st3 with fileStats := m2 }
  let path : ArtifactPath := (c, seq)
  let sw := switchArtifact st4 fs path
  let body := indentBody (element_to_string r.srcXml)
  let fs2 := fsSet sw.2.1 path ((fsGet sw.2.1 path).getD "" ++ body)
  (sw.1, fs2, sw.2.2 ++ [Event.writeRecord path])

/-- Lines 206-279, the handling of one `iterparse` end event: elements whose
tag does not end in `businesscard` are skipped; otherwise the processed
counter is bumped, and a record whose extracted country is falsy (`None` or
`""`) is dropped without touching anything else. -/
def processElem (maxBytes : Nat) (st : RouterState) (fs : FS)
    (r : StreamRecord) : RouterState × FS × List Event :=
  if pyEndsWith r.elem.tag "businesscard" then
    let st1 := { st with processed := st.processed + 1 }
    let country := extract_country r.elem
    if pyTruthy country then handleCountry maxBytes st1 fs r (country.getD "")
    else (st1, fs, [])
  else (st, fs, [])

/-- The `for event, elem in context:` loop of lines 205-279; a parse error
raised by `iterparse` aborts the loop with the state reached so far. -/
def runLoop (maxBytes : Nat) :
    List StreamItem → RouterState → FS →
      Except Unit Unit × RouterState × FS × List Event
  | [], st, fs => (Except.ok (), st, fs, [])
  | StreamItem.parseError :: _, st, fs => (Except.error (), st, fs, [])
  | StreamItem.record r :: rest, st, fs =>
      let step := processElem maxBytes st fs r
      let tail := runLoop maxBytes rest step.1 step.2.1
      (tail.1, tail.2.1, tail.2.2.1, step.2.2 ++ tail.2.2.2)

/-- The `finally` block of lines 281-285: if an artifact is open, write the
closing wrapper tag to it and close the handle. -/
def finalizeRun (st : RouterState) (fs : FS) : RouterState × FS × List Event :=
  match st.currentPath with
  | some p =>
      ({ st with currentPath := none },
       fsSet fs p ((fsGet fs p).getD "" ++ closingTag),
       [Event.closeArtifact p])
  | none => (st, fs, [])

/-- `PeppolSync.process_xml` from the start of the streaming loop: run the
loop over the stream items, then — succeed or fail — run the `finally`
block; on success return `processed_cards`, on a mid-stream parse error
propagate it. -/
def process_xml (maxBytes : Nat) (items : List StreamItem)
    (st : RouterState) (fs : FS) :
    Except Unit Nat × RouterState × FS × List Event :=
  let lp := runLoop maxBytes items st fs
  let fin := finalizeRun lp.2.1 lp.2.2.1
  (lp.1.map (fun _ => fin.1.processed), fin.1, fin.2.1, lp.2.2.2 ++ fin.2.2)

/-- Trace validity for the single-open-handle discipline: starting from an
optional open artifact, an open is legal only when nothing is open, and a
close or write must name the open artifact.  Returns the open artifact after
the trace, or `none` (outer) when the trace violates the discipline. -/
def singleHandleFrom : Option ArtifactPath → List Event →
    Option (Option ArtifactPath)
  | cur, [] => some cur
  | none, Event.openNew p :: rest => singleHandleFrom (some p) rest
  | none, Event.openExisting p :: rest => singleHandleFrom (some p) rest
  | some q, Event.closeArtifact q1 :: rest =>
      if q = q1 then singleHandleFrom none rest else none
  | some q, Event.writeRecord q1 :: rest =>
      if q = q1 then singleHandleFrom (some q) rest else none
  | some _, Event.openNew _ :: _ => none
  | some _, Event.openExisting _ :: _ => none
  | none, Event.closeArtifact _ :: _ => none
  | none, Event.writeRecord _ :: _ => none

/-- The fallback statistics bucket as the specification words it: the
literal `"2000-UNKNOWN"` when the entity name is absent or has no
alphanumeric characters, otherwise `"2000-"` followed by the first five
alphanumeric characters of the entity name, uppercased (filter first, then
truncate to five, then uppercase). -/
def claimBucket (entityName : Option String) : String :=
  match entityName with
  | none => "2000-UNKNOWN"
  | some n =>
      if (n.data.filter Char.isAlphanum) = [] then "2000-UNKNOWN"
      else "2000-" ++ (⟨((n.data.filter Char.isAlphanum).take 5).map Char.toUpper⟩ : String)

/-- A record element whose tag is not a `businesscard` suffix match. -/
def skipRec : StreamRecord := ⟨.node "entity" [] none .nil, "<entity />"⟩

/-- A `businesscard` element with no entity child at all. -/
def noEntityElem : XmlElem := .node "businesscard" [] none .nil

def noCountryRec : StreamRecord := ⟨noEntityElem, "<businesscard />"⟩

/-- A `businesscard` element whose entity lacks a `countrycode` attribute. -/
def noAttrElem : XmlElem :=
  .node "businesscard" [] none
    (.cons (.node "entity" [("extra", "x")] none .nil) .nil)

/-- A `businesscard` element whose entity carries `countrycode=""`. -/
def emptyCcElem : XmlElem :=
  .node "businesscard" [] none
    (.cons (.node "entity" [("countrycode", "")] none .nil) .nil)

def emptyCcRec : StreamRecord :=
  ⟨emptyCcElem, "<businesscard><entity countrycode=\"\" /></businesscard>"⟩

/-- A pre-existing artifact content that does not end in `</root>\n`
(16 ASCII characters, e.g. a file truncated mid-write by an earlier run). -/
def c2BadContent : String := "X123456789ABCDEF"

def c2FS : FS := [(("BE", 1), c2BadContent)]

/-- A pre-existing artifact content of 12 ASCII bytes: oversized for a run
with `max_bytes = 10`. -/
def c3Oversized : String := "XXXXXXXXXXXX"

def c3FS : FS := [(("BE", 1), c3Oversized)]

/-- `ET.tostring` output for a record that, besides the fixed PEPPOL
namespace (prefixed as `ns0`), contains a child in a second namespace, which
ElementTree declares as `ns1`. -/
def c8Src : String :=
  "<ns0:businesscard xmlns:ns0=\"" ++ nsURI ++ "\" xmlns:ns1=\"http://other/\">"
    ++ "<ns1:extra /><ns0:entity countrycode=\"BE\" /></ns0:businesscard>"

/-- What `element_to_string` actually produces for `c8Src`: the fixed
namespace's declaration and `ns0:` tokens are gone, but the second
namespace's declaration and `ns1:` prefix tokens remain. -/
def c8SrcStripped : String :=
  "<businesscard xmlns:ns1=\"http://other/\">"
    ++ "<ns1:extra /><entity countrycode=\"BE\" /></businesscard>"

/-- `ET.tostring` output for a typical record that only involves the fixed
PEPPOL namespace, prefixed as `ns0`. -/
def c8Typical : String :=
  "<ns0:businesscard xmlns:ns0=\"" ++ nsURI ++ "\">"
    ++ "<ns0:entity countrycode=\"BE\"><ns0:name name=\"Acme\" /></ns0:entity>"
    ++ "</ns0:businesscard>"

/-- The namespace-free form of `c8Typical`. -/
def c8TypicalClean : String :=
  "<businesscard>"
    ++ "<entity countrycode=\"BE\"><name name=\"Acme\" /></entity>"
    ++ "</businesscard>"

def beElem : XmlElem :=
  .node "businesscard" [] none
    (.cons (.node "entity" [("countrycode", "BE")] none .nil) .nil)

def beRec : StreamRecord :=
  ⟨beElem, "<businesscard><entity countrycode=\"BE\" /></businesscard>"⟩

/-! Basic lemmas about the association lists, the file system and traces. -/

theorem alGet_alSet_self (m : List (String × Nat)) (k : String) (v : Nat) :
    alGet (alSet m k v) k = some v := by
  induction m with
  | nil => simp [alGet, alSet]
  | cons kv rest ih =>
      by_cases h : kv.1 = k <;> simp [alGet, alSet, h, ih]

theorem alGet_alSet_ne (m : List (String × Nat)) (k k2 : String) (v : Nat)
    (h : k2 ≠ k) : alGet (alSet m k v) k2 = alGet m k2 := by
  induction m with
  | nil => simp [alGet, alSet, Ne.symm h]
  | cons kv rest ih =>
      by_cases h1 : kv.1 = k <;>
        by_cases h2 : kv.1 = k2 <;>
        simp_all [alGet, alSet, Ne.symm h]

theorem alGet_append_single_self (m : List (String × Nat)) (k : String) (v : Nat)
    (h : alGet m k = none) : alGet (m ++ [(k, v)]) k = some v := by
  induction m with
  | nil => simp [alGet]
  | cons kv rest ih =>
      by_cases h1 : kv.1 = k <;> simp_all [alGet]

theorem alGet_append_single_ne (m : List (String × Nat)) (k k2 : String) (v : Nat)
    (h : k2 ≠ k) : alGet (m ++ [(k, v)]) k2 = alGet m k2 := by
  induction m with
  | nil => simp [alGet, Ne.symm h]
  | cons kv rest ih =>
      by_cases h1 : kv.1 = k2 <;> simp_all [alGet]

theorem fsGet_fsSet_self (fs : FS) (p : ArtifactPath) (v : String) :
    fsGet (fsSet fs p v) p = some v := by
  induction fs with
  | nil => simp [fsGet, fsSet]
  | cons kv rest ih =>
      by_cases h : kv.1 = p <;> simp [fsGet, fsSet, h, ih]

theorem fsGet_fsSet_ne (fs : FS) (p p2 : ArtifactPath) (v : String)
    (h : p2 ≠ p) : fsGet (fsSet fs p v) p2 = fsGet fs p2 := by
  induction fs with
  | nil => simp [fsGet, fsSet, Ne.symm h]
  | cons kv rest ih =>
      by_cases h1 : kv.1 = p <;>
        by_cases h2 : kv.1 = p2 <;>
        simp_all [fsGet, fsSet, Ne.symm h]

theorem setdefaultSeq_lookup_self (m : List (String × Nat)) (c : String) :
    alGet (setdefaultSeq m c).1 c = some (setdefaultSeq m c).2 := by
  unfold setdefaultSeq
  cases h : alGet m c with
  | none => simpa using alGet_append_single_self m c 1 h
  | some v => simpa using h

theorem setdefaultSeq_lookup_ne (m : List (String × Nat)) (c c2 : String)
    (h : c2 ≠ c) : alGet (setdefaultSeq m c).1 c2 = alGet m c2 := by
  unfold setdefaultSeq
  cases hm : alGet m c with
  | none => simpa using alGet_append_single_ne m c c2 1 h
  | some v => simp

theorem pyEndsWith_append (a t : String) : pyEndsWith (a ++ t) t = true := by
  simp [pyEndsWith, String.data_append, List.length_append, Nat.add_sub_cancel,
    List.drop_left]

theorem singleHandleFrom_append (cur : Option ArtifactPath) (a b : List Event) :
    singleHandleFrom cur (a ++ b) =
      (singleHandleFrom cur a).bind (fun mid => singleHandleFrom mid b) := by
  induction a generalizing cur with
  | nil => simp [singleHandleFrom]
  | cons e rest ih =>
      cases cur with
      | none =>
          cases e <;> simp [singleHandleFrom, ih]
      | some q =>
          cases e with
          | openNew p => simp [singleHandleFrom]
          | openExisting p => simp [singleHandleFrom]
          | closeArtifact q1 =>
              by_cases h : q = q1 <;> simp [singleHandleFrom, h, ih]
          | writeRecord q1 =>
              by_cases h : q = q1 <;> simp [singleHandleFrom, h, ih]

/-- What one artifact switch does to the state and to the handle trace. -/
theorem switchArtifact_spec (st : RouterState) (fs : FS) (p : ArtifactPath) :
    (switchArtifact st fs p).1.currentPath = some p ∧
    (switchArtifact st fs p).1.processed = st.processed ∧
    (switchArtifact st fs p).1.fileStats = st.fileStats ∧
    (switchArtifact st fs p).1.stats = st.stats ∧
    singleHandleFrom st.currentPath (switchArtifact st fs p).2.2 = some (some p) := by
  by_cases h : st.currentPath = some p
  · simp [switchArtifact, h, singleHandleFrom]
  · cases hcur : st.currentPath with
    | none =>
        simp only [switchArtifact, h, if_false, hcur]
        cases hf : fsGet fs p <;> simp [singleHandleFrom]
    | some q =>
        have hqp : q ≠ p := by rw [hcur] at h; simpa using h
        simp only [switchArtifact, h, if_false, hcur]
        cases hf : fsGet (fsSet fs q ((fsGet fs q).getD "" ++ closingTag)) p <;>
          simp [hqp, singleHandleFrom]

theorem switchArtifact_currentPath (st : RouterState) (fs : FS) (p : ArtifactPath) :
    (switchArtifact st fs p).1.currentPath = some p :=
  (switchArtifact_spec st fs p).1

theorem switchArtifact_processed (st : RouterState) (fs : FS) (p : ArtifactPath) :
    (switchArtifact st fs p).1.processed = st.processed :=
  (switchArtifact_spec st fs p).2.1

theorem switchArtifact_fileStats (st : RouterState) (fs : FS) (p : ArtifactPath) :
    (switchArtifact st fs p).1.fileStats = st.fileStats :=
  (switchArtifact_spec st fs p).2.2.1

theorem switchArtifact_stats (st : RouterState) (fs : FS) (p : ArtifactPath) :
    (switchArtifact st fs p).1.stats = st.stats :=
  (switchArtifact_spec st fs p).2.2.2.1

theorem switchArtifact_trace (st : RouterState) (fs : FS) (p : ArtifactPath) :
    singleHandleFrom st.currentPath (switchArtifact st fs p).2.2 = some (some p) :=
  (switchArtifact_spec st fs p).2.2.2.2

theorem switchArtifact_trace_of (st : RouterState) (fs : FS) (p : ArtifactPath)
    (cur : Option ArtifactPath) (h : st.currentPath = cur) :
    singleHandleFrom cur (switchArtifact st fs p).2.2 = some (some p) :=
  h ▸ switchArtifact_trace st fs p

/-- What handling one record with a (truthy) country does to the state
components named by the claims. -/
theorem handleCountry_spec (mb : Nat) (st : RouterState) (fs : FS)
    (r : StreamRecord) (c : String) :
    (handleCountry mb st fs r c).1.processed = st.processed ∧
    (handleCountry mb st fs r c).1.fileStats =
      (if shouldRoll mb fs (c, (setdefaultSeq st.fileStats c).2)
       then alSet (setdefaultSeq st.fileStats c).1 c
              ((setdefaultSeq st.fileStats c).2 + 1)
       else (setdefaultSeq st.fileStats c).1) ∧
    (handleCountry mb st fs r c).1.currentPath =
      some (c, if shouldRoll mb fs (c, (setdefaultSeq st.fileStats c).2)
               then (setdefaultSeq st.fileStats c).2 + 1
               else (setdefaultSeq st.fileStats c).2) ∧
    singleHandleFrom st.currentPath (handleCountry mb st fs r c).2.2 =
      some ((handleCountry mb st fs r c).1.currentPath) := by
  simp only [handleCountry]
  by_cases hroll : shouldRoll mb fs (c, (setdefaultSeq st.fileStats c).2) = true
  · simp [hroll, switchArtifact_currentPath, switchArtifact_processed,
      switchArtifact_fileStats, singleHandleFrom_append, switchArtifact_trace_of,
      singleHandleFrom]
  · simp only [Bool.not_eq_true] at hroll
    simp [hroll, switchArtifact_currentPath, switchArtifact_processed,
      switchArtifact_fileStats, singleHandleFrom_append, switchArtifact_trace_of,
      singleHandleFrom]

theorem processElem_not_record (mb : Nat) (st : RouterState) (fs : FS)
    (r : StreamRecord) (h : pyEndsWith r.elem.tag "businesscard" = false) :
    processElem mb st fs r = (st, fs, []) := by
  simp [processElem, h]

theorem processElem_no_country (mb : Nat) (st : RouterState) (fs : FS)
    (r : StreamRecord) (htag : pyEndsWith r.elem.tag "businesscard" = true)
    (hc : pyTruthy (extract_country r.elem) = false) :
    processElem mb st fs r = ({ st with processed := st.processed + 1 }, fs, []) := by
  simp [processElem, htag, hc]

theorem processElem_eligible (mb : Nat) (st : RouterState) (fs : FS)
    (r : StreamRecord) (htag : pyEndsWith r.elem.tag "businesscard" = true)
    (hc : pyTruthy (extract_country r.elem) = true) :
    processElem mb st fs r =
      handleCountry mb { st with processed := st.processed + 1 } fs r
        ((extract_country r.elem).getD "") := by
  simp [processElem, htag, hc]

theorem processElem_trace (mb : Nat) (st : RouterState) (fs : FS)
    (r : StreamRecord) :
    singleHandleFrom st.currentPath (processElem mb st fs r).2.2 =
      some ((processElem mb st fs r).1.currentPath) := by
  cases htag : pyEndsWith r.elem.tag "businesscard" with
  | false => simp [processElem_not_record mb st fs r htag, singleHandleFrom]
  | true =>
      cases hc : pyTruthy (extract_country r.elem) with
      | false => simp [processElem_no_country mb st fs r htag hc, singleHandleFrom]
      | true =>
          rw [processElem_eligible mb st fs r htag hc]
          exact (handleCountry_spec mb { st with processed := st.processed + 1 }
            fs r ((extract_country r.elem).getD "")).2.2.2

theorem runLoop_trace (mb : Nat) (items : List StreamItem) (st : RouterState)
    (fs : FS) :
    singleHandleFrom st.currentPath (runLoop mb items st fs).2.2.2 =
      some ((runLoop mb items st fs).2.1.currentPath) := by
  induction items generalizing st fs with
  | nil => simp [runLoop, singleHandleFrom]
  | cons it rest ih =>
      cases it with
      | parseError => simp [runLoop, singleHandleFrom]
      | record r =>
          simp only [runLoop, singleHandleFrom_append, processElem_trace,
            Option.bind_some]
          exact ih _ _

/-- C5 helper: the `finally` block closes whatever is open, so the whole
trace of `process_xml` is single-handle valid and ends with nothing open. -/
theorem process_xml_trace (mb : Nat) (items : List StreamItem)
    (st : RouterState) (fs : FS) :
    singleHandleFrom st.currentPath (process_xml mb items st fs).2.2.2 =
      some none := by
  simp only [process_xml, singleHandleFrom_append, runLoop_trace,
    Option.bind_some]
  cases hcur : (runLoop mb items st fs).2.1.currentPath with
  | none => simp [finalizeRun, hcur, singleHandleFrom]
  | some p => simp [finalizeRun, hcur, singleHandleFrom]

/-- C5: at every instant during a run at most one output artifact is open
for writing: the event trace of a whole `process_xml` run is valid for the
single-handle discipline (an open only ever happens when nothing is open —
so a switch to a different candidate path closes the open artifact first —
and every write targets the open artifact), and the run ends with no
artifact open. -/
theorem c5_single_open_handle (mb : Nat) (items : List StreamItem)
    (st : RouterState) (fs : FS) :
    singleHandleFrom st.currentPath (process_xml mb items st fs).2.2.2 =
      some none :=
  process_xml_trace mb items st fs

/-- C1: whenever an artifact is still open when the streaming loop ends —
normally or by a mid-stream parse error — `process_xml` writes the closing
wrapper tag `</root>\n` to it and closes the handle before returning or
propagating: the final content at the open path is the loop-end content plus
the closing tag, it ends with the closing tag, and no handle remains open. -/
theorem c1_finalization_always (mb : Nat) (items : List StreamItem)
    (st : RouterState) (fs : FS) (p : ArtifactPath)
    (h : (runLoop mb items st fs).2.1.currentPath = some p) :
    fsGet (process_xml mb items st fs).2.2.1 p =
      some ((fsGet (runLoop mb items st fs).2.2.1 p).getD "" ++ closingTag) ∧
    pyEndsWith ((fsGet (process_xml mb items st fs).2.2.1 p).getD "")
      closingTag = true ∧
    (process_xml mb items st fs).2.1.currentPath = none := by
  have h1 : fsGet (process_xml mb items st fs).2.2.1 p =
      some ((fsGet (runLoop mb items st fs).2.2.1 p).getD "" ++ closingTag) := by
    simp [process_xml, finalizeRun, h, fsGet_fsSet_self]
  refine ⟨h1, ?_, ?_⟩
  · rw [h1]
    simpa using pyEndsWith_append
      ((fsGet (runLoop mb items st fs).2.2.1 p).getD "") closingTag
  · simp [process_xml, finalizeRun, h]

/-- Witness for C1 at a concrete run that is aborted by a parse error while
the `BE` artifact is open: finalization still writes the closing tag. -/
theorem c1_finalization_always_witness :
    (runLoop 1000000 [.record beRec, .parseError] initState []).2.1.currentPath
        = some ("BE", 1) ∧
    (process_xml 1000000 [.record beRec, .parseError] initState []).1 =
        Except.error () ∧
    (pyEndsWith
        ((fsGet (process_xml 1000000 [.record beRec, .parseError] initState
            []).2.2.1 ("BE", 1)).getD "") closingTag = true ∧
      (process_xml 1000000 [.record beRec, .parseError] initState
          []).2.1.currentPath = none) :=
  ⟨by decide, by rfl,
   (c1_finalization_always 1000000 [.record beRec, .parseError] initState []
      ("BE", 1) (by decide)).2⟩

theorem setdefaultSeq_of_none (m : List (String × Nat)) (c : String)
    (h : alGet m c = none) : setdefaultSeq m c = (m ++ [(c, 1)], 1) := by
  unfold setdefaultSeq; rw [h]

theorem setdefaultSeq_of_some (m : List (String × Nat)) (c : String) (k : Nat)
    (h : alGet m c = some k) : setdefaultSeq m c = (m, k) := by
  unfold setdefaultSeq; rw [h]

theorem processElem_fileStats_eligible (mb : Nat) (st : RouterState) (fs : FS)
    (r : StreamRecord) (c : String)
    (htag : pyEndsWith r.elem.tag "businesscard" = true)
    (hc : extract_country r.elem = some c)
    (hne : pyTruthy (some c) = true) :
    (processElem mb st fs r).1.fileStats =
      (if shouldRoll mb fs (c, (setdefaultSeq st.fileStats c).2)
       then alSet (setdefaultSeq st.fileStats c).1 c
              ((setdefaultSeq st.fileStats c).2 + 1)
       else (setdefaultSeq st.fileStats c).1) := by
  rw [processElem_eligible mb st fs r htag (by rw [hc]; exact hne), hc]
  simpa using
    (handleCountry_spec mb { st with processed := st.processed + 1 } fs r c).2.1

/-- C3: for every eligible record, the country's sequence after the record
equals the looked-up (or freshly created) sequence plus one exactly when a
file already exists at the candidate path and its on-disk byte size strictly
exceeds `max_bytes` (the `fs` consulted is the one from before this record's
writes), and otherwise is unchanged; the check happens once per record, and
no other country's sequence moves. -/
theorem c3_size_rollover (mb : Nat) (st : RouterState) (fs : FS)
    (r : StreamRecord) (c : String)
    (htag : pyEndsWith r.elem.tag "businesscard" = true)
    (hc : extract_country r.elem = some c)
    (hne : pyTruthy (some c) = true) :
    alGet (processElem mb st fs r).1.fileStats c =
      some (if shouldRoll mb fs (c, (setdefaultSeq st.fileStats c).2)
            then (setdefaultSeq st.fileStats c).2 + 1
            else (setdefaultSeq st.fileStats c).2) ∧
    (shouldRoll mb fs (c, (setdefaultSeq st.fileStats c).2) = true ↔
      ∃ content, fsGet fs (c, (setdefaultSeq st.fileStats c).2) = some content ∧
        mb < pyByteSize content) ∧
    (∀ c2, c2 ≠ c →
      alGet (processElem mb st fs r).1.fileStats c2 = alGet st.fileStats c2) := by
  have hfs := processElem_fileStats_eligible mb st fs r c htag hc hne
  refine ⟨?_, ?_, ?_⟩
  · rw [hfs]
    by_cases hr : shouldRoll mb fs (c, (setdefaultSeq st.fileStats c).2) = true
    · simp [hr, alGet_alSet_self]
    · simp only [Bool.not_eq_true] at hr
      simp [hr, setdefaultSeq_lookup_self]
  · constructor
    · intro h
      unfold shouldRoll at h
      cases hfg : fsGet fs (c, (setdefaultSeq st.fileStats c).2) with
      | none => rw [hfg] at h; cases h
      | some content =>
          rw [hfg] at h
          exact ⟨content, rfl, of_decide_eq_true h⟩
    · rintro ⟨content, hg, hlt⟩
      unfold shouldRoll
      rw [hg]
      exact decide_eq_true hlt
  · intro c2 hcc
    rw [hfs]
    by_cases hr : shouldRoll mb fs (c, (setdefaultSeq st.fileStats c).2) = true
    · simp [hr, alGet_alSet_ne _ _ _ _ hcc, setdefaultSeq_lookup_ne _ _ _ hcc]
    · simp only [Bool.not_eq_true] at hr
      simp [hr, setdefaultSeq_lookup_ne _ _ _ hcc]

/-- Witness for C3 at the fresh-country / pre-existing oversized artifact
scenario: `max_bytes = 10`, an existing 12-byte artifact at `(BE, 1)`, a
first `BE` record — the sequence rolls to 2 before anything is written. -/
theorem c3_size_rollover_witness :
    alGet (processElem 10 initState c3FS beRec).1.fileStats "BE" =
      some (if shouldRoll 10 c3FS ("BE", (setdefaultSeq initState.fileStats "BE").2)
            then (setdefaultSeq initState.fileStats "BE").2 + 1
            else (setdefaultSeq initState.fileStats "BE").2) ∧
    shouldRoll 10 c3FS ("BE", 1) = true ∧
    alGet (processElem 10 initState c3FS beRec).1.fileStats "BE" = some 2 ∧
    fsGet (processElem 10 initState c3FS beRec).2.1 ("BE", 1) = some c3Oversized :=
  ⟨(c3_size_rollover 10 initState c3FS beRec "BE" (by decide) (by decide)
      (by decide)).1,
   by decide, by decide, by decide⟩

theorem processElem_fileStats_step (mb : Nat) (st : RouterState) (fs : FS)
    (r : StreamRecord) (c : String) :
    alGet (processElem mb st fs r).1.fileStats c = alGet st.fileStats c ∨
    (alGet st.fileStats c = none ∧
      alGet (processElem mb st fs r).1.fileStats c = some 1) ∨
    alGet (processElem mb st fs r).1.fileStats c =
      some ((alGet st.fileStats c).getD 1 + 1) := by
  cases htag : pyEndsWith r.elem.tag "businesscard" with
  | false => left; rw [processElem_not_record mb st fs r htag]
  | true =>
      cases hc : pyTruthy (extract_country r.elem) with
      | false => left; rw [processElem_no_country mb st fs r htag hc]
      | true =>
          cases hcs : extract_country r.elem with
          | none => rw [hcs] at hc; cases hc
          | some c1 =>
              rw [hcs] at hc
              have hfs := processElem_fileStats_eligible mb st fs r c1 htag hcs hc
              by_cases hcc : c = c1
              · subst hcc
                rcases h0 : alGet st.fileStats c with _ | k
                · rw [hfs, setdefaultSeq_of_none st.fileStats c h0]
                  by_cases hr : shouldRoll mb fs (c, 1) = true
                  · right; right
                    simp [hr, alGet_alSet_self]
                  · simp only [Bool.not_eq_true] at hr
                    right; left
                    exact ⟨rfl,
                      by simp [hr, alGet_append_single_self st.fileStats c 1 h0]⟩
                · rw [hfs, setdefaultSeq_of_some st.fileStats c k h0]
                  by_cases hr : shouldRoll mb fs (c, k) = true
                  · right; right
                    simp [hr, alGet_alSet_self]
                  · simp only [Bool.not_eq_true] at hr
                    left
                    simp [hr, h0]
              · left
                rw [hfs]
                by_cases hr :
                    shouldRoll mb fs (c1, (setdefaultSeq st.fileStats c1).2) = true
                · simp [hr, alGet_alSet_ne _ _ _ _ hcc,
                    setdefaultSeq_lookup_ne _ _ _ hcc]
                · simp only [Bool.not_eq_true] at hr
                  simp [hr, setdefaultSeq_lookup_ne _ _ _ hcc]

theorem processElem_seq_mono (mb : Nat) (st : RouterState) (fs : FS)
    (r : StreamRecord) (c : String) (k : Nat)
    (h : alGet st.fileStats c = some k) :
    ∃ n, alGet (processElem mb st fs r).1.fileStats c = some n ∧ k ≤ n := by
  rcases processElem_fileStats_step mb st fs r c with h1 | ⟨h0, h2⟩ | h1
  · exact ⟨k, by rw [h1, h], Nat.le_refl k⟩
  · rw [h0] at h; cases h
  · refine ⟨(alGet st.fileStats c).getD 1 + 1, h1, ?_⟩
    rw [h]
    exact Nat.le_succ_of_le (Nat.le_refl k)

theorem runLoop_seq_mono (mb : Nat) (items : List StreamItem)
    (st : RouterState) (fs : FS) (c : String) (k : Nat)
    (h : alGet st.fileStats c = some k) :
    ∃ n, alGet (runLoop mb items st fs).2.1.fileStats c = some n ∧ k ≤ n := by
  induction items generalizing st fs k with
  | nil => exact ⟨k, by simpa [runLoop] using h, Nat.le_refl k⟩
  | cons it rest ih =>
      cases it with
      | parseError => exact ⟨k, by simpa [runLoop] using h, Nat.le_refl k⟩
      | record r =>
          obtain ⟨n1, h1, hk1⟩ := processElem_seq_mono mb st fs r c k h
          obtain ⟨n2, h2, hk2⟩ :=
            ih (processElem mb st fs r).1 (processElem mb st fs r).2.1 n1 h1
          exact ⟨n2, by simpa [runLoop] using h2, Nat.le_trans hk1 hk2⟩

/-- C4: a country's `CountryState` is created by `setdefault` on its first
eligible record with sequence 1; across any single record the stored
sequence either stays, is freshly created at 1, or moves up by exactly one
(so the values form a contiguous 1, 2, 3, … series with no gaps or
decreases); an existing entry is never removed, and over the remainder of
any run its value only grows. -/
theorem c4_country_state (mb : Nat) (st : RouterState) (fs : FS)
    (r : StreamRecord) (m : List (String × Nat)) (c c0 : String)
    (items : List StreamItem) (k : Nat) :
    (alGet m c0 = none → setdefaultSeq m c0 = (m ++ [(c0, 1)], 1)) ∧
    (alGet (processElem mb st fs r).1.fileStats c = alGet st.fileStats c ∨
     (alGet st.fileStats c = none ∧
        alGet (processElem mb st fs r).1.fileStats c = some 1) ∨
     alGet (processElem mb st fs r).1.fileStats c =
        some ((alGet st.fileStats c).getD 1 + 1)) ∧
    ((alGet st.fileStats c).isSome = true →
        (alGet (processElem mb st fs r).1.fileStats c).isSome = true) ∧
    (alGet st.fileStats c = some k →
        ∃ n, alGet (runLoop mb items st fs).2.1.fileStats c = some n ∧ k ≤ n) := by
  refine ⟨setdefaultSeq_of_none m c0, processElem_fileStats_step mb st fs r c,
    ?_, runLoop_seq_mono mb items st fs c k⟩
  intro h
  rcases processElem_fileStats_step mb st fs r c with h1 | ⟨h0, h2⟩ | h1
  · rw [h1]; exact h
  · rw [h0] at h; cases h
  · rw [h1]; rfl

/-- Witness for C4: creation at sequence 1 for a fresh country, and growth
of an existing sequence 2 entry across a concrete run. -/
theorem c4_country_state_witness :
    setdefaultSeq [] "BE" = ([("BE", 1)], 1) ∧
    (∃ n, alGet (runLoop 1000000 [.record beRec]
        { initState with fileStats := [("BE", 2)] } []).2.1.fileStats "BE"
          = some n ∧ 2 ≤ n) :=
  ⟨(c4_country_state 1000000 initState [] beRec [] "BE" "BE" [] 2).1 (by decide),
   (c4_country_state 1000000 { initState with fileStats := [("BE", 2)] } []
      beRec [] "BE" "BE" [.record beRec] 2).2.2.2 (by decide)⟩

/-- C6: the synthesized fallback statistics bucket equals the claim's
description — alphanumeric filtering first, then truncation to five, then
uppercasing, with `"2000-UNKNOWN"` when the name is absent or yields no
alphanumeric characters — and in particular `"Acme5 Corp!"` gives
`"2000-ACME5"` while `"!!!"` and an absent name give `"2000-UNKNOWN"`. -/
theorem c6_fallback_bucket (entityName : Option String) :
    fallbackBucket entityName = claimBucket entityName ∧
    fallbackBucket (some "Acme5 Corp!") = "2000-ACME5" ∧
    fallbackBucket (some "!!!") = "2000-UNKNOWN" ∧
    fallbackBucket none = "2000-UNKNOWN" := by
  refine ⟨?_, by decide, by decide, by decide⟩
  cases entityName with
  | none => rfl
  | some n =>
      by_cases h : n.data = []
      · simp [fallbackBucket, safe_name, claimBucket, h]
      · by_cases hf : n.data.filter Char.isAlphanum = []
        · simp [fallbackBucket, safe_name, claimBucket, h, hf, pyFilterAlnum,
            pyTake, pyUpper]
        · simp [fallbackBucket, safe_name, claimBucket, h, hf, pyFilterAlnum,
            pyTake, pyUpper, List.take_eq_nil_iff]

/-- C7: a record whose country cannot be resolved (no entity element, or no
country-code attribute, so `extract_country` is `None`) still bumps the
processed counter but changes nothing else: no artifact is touched, no event
is emitted, and neither the country nor the date statistics move. -/
theorem c7_unresolved_country_excluded :
    (∀ (mb : Nat) (st : RouterState) (fs : FS) (r : StreamRecord),
        pyEndsWith r.elem.tag "businesscard" = true →
        extract_country r.elem = none →
        processElem mb st fs r =
          ({ st with processed := st.processed + 1 }, fs, [])) ∧
    extract_country noEntityElem = none ∧
    extract_country noAttrElem = none := by
  refine ⟨?_, by decide, by decide⟩
  intro mb st fs r htag hc
  exact processElem_no_country mb st fs r htag (by rw [hc]; rfl)

theorem c7_unresolved_country_excluded_witness :
    pyEndsWith noCountryRec.elem.tag "businesscard" = true ∧
    extract_country noCountryRec.elem = none ∧
    processElem 5 initState [] noCountryRec =
      ({ initState with processed := initState.processed + 1 }, [], []) :=
  ⟨by decide, by decide,
   c7_unresolved_country_excluded.1 5 initState [] noCountryRec (by decide)
     (by decide)⟩

/-- C9: the stream driver dispatches on a suffix test of the tag: an element
whose tag does not end in `businesscard` is skipped entirely (state, file
system and trace untouched), one whose tag does end in `businesscard` is
counted as processed; the namespace-qualified tag and the unrelated
`notabusinesscard` both pass the test, `entity` does not. -/
theorem c9_suffix_dispatch :
    (∀ (mb : Nat) (st : RouterState) (fs : FS) (r : StreamRecord),
        pyEndsWith r.elem.tag "businesscard" = false →
        processElem mb st fs r = (st, fs, [])) ∧
    (∀ (mb : Nat) (st : RouterState) (fs : FS) (r : StreamRecord),
        pyEndsWith r.elem.tag "businesscard" = true →
        (processElem mb st fs r).1.processed = st.processed + 1) ∧
    pyEndsWith (nsTag "businesscard") "businesscard" = true ∧
    pyEndsWith "notabusinesscard" "businesscard" = true ∧
    pyEndsWith "entity" "businesscard" = false := by
  refine ⟨processElem_not_record, ?_, by decide, by decide, by decide⟩
  intro mb st fs r htag
  cases hc : pyTruthy (extract_country r.elem) with
  | false => rw [processElem_no_country mb st fs r htag hc]
  | true =>
      rw [processElem_eligible mb st fs r htag hc]
      simpa using (handleCountry_spec mb { st with processed := st.processed + 1 }
        fs r ((extract_country r.elem).getD "")).1

theorem c9_suffix_dispatch_witness :
    processElem 7 initState [] skipRec = (initState, [], []) ∧
    (processElem 7 initState [] beRec).1.processed = initState.processed + 1 :=
  ⟨c9_suffix_dispatch.1 7 initState [] skipRec (by decide),
   c9_suffix_dispatch.2.1 7 initState [] beRec (by decide)⟩

/-- C10: a record whose entity carries `countrycode=""` behaves exactly like
one with no country at all: `extract_country` returns the empty string, the
truthiness guard rejects it, and only the processed counter moves — no
artifact write, no statistics. -/
theorem c10_empty_countrycode :
    (∀ (mb : Nat) (st : RouterState) (fs : FS) (r : StreamRecord),
        pyEndsWith r.elem.tag "businesscard" = true →
        extract_country r.elem = some "" →
        processElem mb st fs r =
          ({ st with processed := st.processed + 1 }, fs, [])) ∧
    extract_country emptyCcElem = some "" ∧
    pyTruthy (some "") = false := by
  refine ⟨?_, by decide, by decide⟩
  intro mb st fs r htag hc
  exact processElem_no_country mb st fs r htag (by rw [hc]; decide)

theorem c10_empty_countrycode_witness :
    pyEndsWith emptyCcRec.elem.tag "businesscard" = true ∧
    extract_country emptyCcRec.elem = some "" ∧
    processElem 5 initState [] emptyCcRec =
      ({ initState with processed := initState.processed + 1 }, [], []) :=
  ⟨by decide, by decide,
   c10_empty_countrycode.1 5 initState [] emptyCcRec (by decide) (by decide)⟩

/-- C2 counterexample: reopening a candidate artifact whose trailing bytes
are NOT `</root>\n` does not fail; the code computes the truncation offset
and applies it anyway.  With a pre-existing 16-byte file `X123456789ABCDEF`
at `(BE, 1)`, processing one `BE` record reopens it (no error path exists),
silently drops the final 8 characters, and appends the record. -/
theorem c2_blind_truncation_counterexample :
    pyEndsWith c2BadContent closingTag = false ∧
    (processElem 1000000 initState c2FS beRec).2.2 =
      [Event.openExisting ("BE", 1), Event.writeRecord ("BE", 1)] ∧
    fsGet (processElem 1000000 initState c2FS beRec).2.1 ("BE", 1) =
      some ("X1234567  <businesscard><entity countrycode=\"BE\" /></businesscard>\n") := by
  decide

/-- C2 (amended): on every reopen of an existing candidate artifact the
router performs no check of the trailing bytes and cannot fail: it
unconditionally truncates the final `len('</root>\n')` characters, whatever
they are; when the file does end with `</root>\n`, exactly that suffix is
removed, so subsequent writes land inside the still-open wrapper. -/
theorem c2_reopen_truncates_unconditionally (st : RouterState) (fs : FS)
    (p : ArtifactPath) (content : String)
    (hcur : st.currentPath ≠ some p) (hex : fsGet fs p = some content) :
    fsGet (switchArtifact st fs p).2.1 p = some (reopenTruncate content) ∧
    (switchArtifact st fs p).2.2 =
      (match st.currentPath with
       | some cur => [Event.closeArtifact cur]
       | none => []) ++ [Event.openExisting p] ∧
    (pyEndsWith content closingTag = true →
      reopenTruncate content ++ closingTag = content) := by
  refine ⟨?_, ?_, ?_⟩
  · cases hc : st.currentPath with
    | none =>
        simp only [switchArtifact, hc]
        simp [hex, fsGet_fsSet_self]
    | some q =>
        have hqp : q ≠ p := by rw [hc] at hcur; simpa using hcur
        have hq2 : fsGet (fsSet fs q ((fsGet fs q).getD "" ++ closingTag)) p =
            some content := by rw [fsGet_fsSet_ne fs q p _ (Ne.symm hqp), hex]
        simp only [switchArtifact, hc]
        simp [hqp, hq2, fsGet_fsSet_self]
  · cases hc : st.currentPath with
    | none =>
        simp only [switchArtifact, hc]
        simp [hex]
    | some q =>
        have hqp : q ≠ p := by rw [hc] at hcur; simpa using hcur
        have hq2 : fsGet (fsSet fs q ((fsGet fs q).getD "" ++ closingTag)) p =
            some content := by rw [fsGet_fsSet_ne fs q p _ (Ne.symm hqp), hex]
        simp only [switchArtifact, hc]
        simp [hqp, hq2]
  · intro h
    simp only [pyEndsWith, decide_eq_true_eq] at h
    apply String.ext
    simp only [String.data_append, reopenTruncate]
    generalize hn : content.data.length - closingTag.data.length = n at h ⊢
    rw [← h]
    exact List.take_append_drop n content.data

theorem c2_reopen_truncates_unconditionally_witness :
    (initState.currentPath ≠ some ("BE", 1) ∧
      fsGet [(("BE", 1), "0123456</root>\n")] ("BE", 1) =
        some "0123456</root>\n") ∧
    fsGet (switchArtifact initState [(("BE", 1), "0123456</root>\n")]
        ("BE", 1)).2.1 ("BE", 1) = some (reopenTruncate "0123456</root>\n") ∧
    reopenTruncate "0123456</root>\n" ++ closingTag = "0123456</root>\n" :=
  have hmain := c2_reopen_truncates_unconditionally initState
    [(("BE", 1), "0123456</root>\n")] ("BE", 1) "0123456</root>\n"
    (by decide) (by decide)
  ⟨⟨by decide, by decide⟩, hmain.1, hmain.2.2 (by decide)⟩

theorem dropPrefixChars_none (pat l : List Char)
    (h : pat.isPrefixOf l = false) : dropPrefixChars pat l = none := by
  induction pat generalizing l with
  | nil => simp [List.isPrefixOf] at h
  | cons p ps ih =>
      cases l with
      | nil => rfl
      | cons c cs =>
          by_cases hpc : p = c
          · subst hpc
            simp only [List.isPrefixOf, beq_self_eq_true, Bool.true_and] at h
            simp [dropPrefixChars, ih cs h]
          · simp [dropPrefixChars, hpc]

theorem removeAllAux_of_not_substr (pat : List Char) (fuel : Nat)
    (l : List Char) (h : hasSubstrChars pat l = false) :
    removeAllAux pat fuel l = l := by
  induction l generalizing fuel with
  | nil => cases fuel <;> rfl
  | cons c rest ih =>
      cases fuel with
      | zero => rfl
      | succ n =>
          simp only [hasSubstrChars, Bool.or_eq_false_iff] at h
          simp [removeAllAux, dropPrefixChars_none pat _ h.1, ih n h.2]

theorem pyRemoveAll_of_not_substr (s pat : String)
    (h : hasSubstr s pat = false) : pyRemoveAll s pat = s := by
  unfold pyRemoveAll
  by_cases he : pat.data.isEmpty
  · simp [he]
  · simp only [he, if_false, Bool.false_eq_true]
    rw [removeAllAux_of_not_substr pat.data _ _ h]

/-- C8 counterexample: the output of `element_to_string` is not in general
free of namespace declarations or prefix tokens.  For a record that also
uses a second namespace (which ElementTree declares as `ns1`), the three
`replace` calls leave the `xmlns:ns1` declaration and every `ns1:` prefix
token in place. -/
theorem c8_foreign_namespace_counterexample :
    element_to_string c8Src = c8SrcStripped ∧
    hasSubstr c8SrcStripped " xmlns:ns1=\"http://other/\"" = true ∧
    hasSubstr c8SrcStripped "ns1:" = true := by
  decide

/-- C8 (amended): `element_to_string` removes exactly the fixed PEPPOL
namespace's two declaration forms and the literal `ns0:` prefix token; every
other byte of the source serialization is preserved in order — in
particular, a source containing none of the three tokens is returned
byte-identically, and a typical single-namespace record is emitted with the
declaration and all `ns0:` tokens removed and everything else intact. -/
theorem c8_namespace_strip_behavior :
    (∀ s : String, hasSubstr s declPrefixed = false →
        hasSubstr s declDefault = false → hasSubstr s "ns0:" = false →
        element_to_string s = s) ∧
    element_to_string c8Typical = c8TypicalClean ∧
    hasSubstr c8TypicalClean "xmlns" = false ∧
    hasSubstr c8TypicalClean "ns0:" = false := by
  refine ⟨?_, by decide, by decide, by decide⟩
  intro s h1 h2 h3
  unfold element_to_string
  rw [pyRemoveAll_of_not_substr s declPrefixed h1,
      pyRemoveAll_of_not_substr s declDefault h2,
      pyRemoveAll_of_not_substr s "ns0:" h3]

theorem c8_namespace_strip_behavior_witness :
    (hasSubstr beRec.srcXml declPrefixed = false ∧
      hasSubstr beRec.srcXml declDefault = false ∧
      hasSubstr beRec.srcXml "ns0:" = false) ∧
    element_to_string beRec.srcXml = beRec.srcXml :=
  ⟨⟨by decide, by decide, by decide⟩,
   c8_namespace_strip_behavior.1 beRec.srcXml (by decide) (by decide)
     (by decide)⟩
